import Mathlib

/-!
Verification of the `top_players.py` reporting utility.

The script reads flat key-value player save files, parses a handful of
fields, and prints ranked leaderboards.  Below we give a shallow embedding
of the script: Python strings are modelled as `List Char` (wrapped in
`String` at the record boundary), Python `int` values as `Int`, fallible
operations as `Option`, and the filesystem seen by the collector and the
entry point as explicit inductive data.
-/

namespace TopPlayers

/-! ### Python string primitives -/

/-- The characters removed by Python `str.strip()` (the `str.isspace`
set: ASCII whitespace plus the Unicode space characters). -/
def isPySpace (c : Char) : Bool :=
  c == ' ' || c == '\t' || c == '\n' || c == '\r' ||
  c.val == 0x0b || c.val == 0x0c ||
  (0x1c ≤ c.val && c.val ≤ 0x1f) ||
  c.val == 0x85 || c.val == 0xa0 || c.val == 0x1680 ||
  (0x2000 ≤ c.val && c.val ≤ 0x200a) ||
  c.val == 0x2028 || c.val == 0x2029 ||
  c.val == 0x202f || c.val == 0x205f || c.val == 0x3000

/-- Python `str.strip()`: drop leading and trailing whitespace. -/
def stripL (l : List Char) : List Char :=
  ((l.dropWhile isPySpace).reverse.dropWhile isPySpace).reverse

/-- The line-boundary characters of Python `str.splitlines()`. -/
def isLineBreak (c : Char) : Bool :=
  c == '\n' || c == '\r' ||
  c.val == 0x0b || c.val == 0x0c ||
  c.val == 0x1c || c.val == 0x1d || c.val == 0x1e ||
  c.val == 0x85 || c.val == 0x2028 || c.val == 0x2029

/-- Worker for `splitlinesL`; `cur` is the current line, reversed. -/
def splitlinesGo (cur : List Char) : List Char → List (List Char)
  | [] => if cur = [] then [] else [cur.reverse]
  | '\r' :: '\n' :: rest => cur.reverse :: splitlinesGo [] rest
  | c :: rest =>
    if isLineBreak c then cur.reverse :: splitlinesGo [] rest
    else splitlinesGo (c :: cur) rest

/-- Python `str.splitlines()`: `\r\n` counts as one boundary, a trailing
boundary does not produce an extra empty line. -/
def splitlinesL (l : List Char) : List (List Char) :=
  splitlinesGo [] l

/-- Is the second list an initial segment of the first argument order:
`startsWithL p l` is Python `l.startswith(p)`. -/
def startsWithL : List Char → List Char → Bool
  | [], _ => true
  | _ :: _, [] => false
  | p :: ps, c :: cs => p == c && startsWithL ps cs

/-- Everything after the first `:`; `none` when there is no colon.
Models `s.split(":", 1)[1]`, where the `none` case is Python's
`IndexError`. -/
def afterColon : List Char → Option (List Char)
  | [] => none
  | ':' :: rest => some rest
  | _ :: rest => afterColon rest

/-- `afterColon` with `[]` as the no-colon default.  Used in the branches
whose matched token itself contains the colon, so the default is
unreachable there. -/
def afterColonD (l : List Char) : List Char :=
  match afterColon l with
  | some r => r
  | none => []

/-- The decades of Unicode decimal digits (category `Nd`): each entry is
the code point of a digit `0`, beginning a run of 10 consecutive code
points valued 0..9.  CPython's `int()` accepts exactly these digit
characters (table of Unicode 14.0, as shipped by CPython 3.11). -/
def ndDecadeStarts : List Nat :=
  [0x30, 0x660, 0x6f0, 0x7c0, 0x966, 0x9e6, 0xa66, 0xae6, 0xb66, 0xbe6,
   0xc66, 0xce6, 0xd66, 0xde6, 0xe50, 0xed0, 0xf20, 0x1040, 0x1090,
   0x17e0, 0x1810, 0x1946, 0x19d0, 0x1a80, 0x1a90, 0x1b50, 0x1bb0,
   0x1c40, 0x1c50, 0xa620, 0xa8d0, 0xa900, 0xa9d0, 0xa9f0, 0xaa50,
   0xabf0, 0xff10, 0x104a0, 0x10d30, 0x11066, 0x110f0, 0x11136,
   0x111d0, 0x112f0, 0x11450, 0x114d0, 0x11650, 0x116c0, 0x11730,
   0x118e0, 0x11950, 0x11c50, 0x11d50, 0x11da0, 0x16a60, 0x16ac0,
   0x16b50, 0x1d7ce, 0x1d7d8, 0x1d7e2, 0x1d7ec, 0x1d7f6, 0x1e140,
   0x1e2f0, 0x1e950, 0x1fbf0]

/-- The decimal value of a character as `int()` sees it: its offset in
its `Nd` decade, or `none` when the character is not a decimal digit. -/
def pyDigitVal (c : Char) : Option Nat :=
  (ndDecadeStarts.find? (fun s => s ≤ c.toNat && c.toNat ≤ s + 9)).map
    (fun s => c.toNat - s)

/-- Digit tail of a Python integer literal: digits with single
underscores allowed between digits, accumulating the value. -/
def digitsTail (acc : Nat) : List Char → Option Nat
  | [] => some acc
  | '_' :: c :: rest =>
    match pyDigitVal c with
    | some dv => digitsTail (10 * acc + dv) rest
    | none => none
  | c :: rest =>
    match pyDigitVal c with
    | some dv => digitsTail (10 * acc + dv) rest
    | none => none

/-- Nonempty digit run (underscore-grouped), most significant first. -/
def digitsVal : List Char → Option Nat
  | [] => none
  | c :: rest =>
    match pyDigitVal c with
    | some dv => digitsTail dv rest
    | none => none

/-- Python `int(s)` on a decimal string: strips whitespace, accepts an
optional sign, then Unicode decimal digits with single underscores
between digits; `none` models `ValueError`. -/
def pyInt (l : List Char) : Option Int :=
  match stripL l with
  | '+' :: rest => (digitsVal rest).map (fun n => (n : Int))
  | '-' :: rest => (digitsVal rest).map (fun n => -(n : Int))
  | s => (digitsVal s).map (fun n => (n : Int))

/-- Python `str.upper()` for the ASCII strings used by the script. -/
def pyUpper (s : String) : String :=
  String.mk (s.data.map Char.toUpper)

/-- Python `f"{s:<w}"`: left-justify in a field of `w` characters. -/
def pyLjust (s : String) (w : Nat) : String :=
  s ++ String.mk (List.replicate (w - s.length) ' ')

/-- Python `c * n`: a run of `n` copies of one character. -/
def repChar (c : Char) (n : Nat) : String :=
  String.mk (List.replicate n c)

/-- Insert `,` after every third character of a reversed digit list
(worker for the `,` format spec). -/
def commaRev : List Char → List Char
  | a :: b :: c :: d :: rest => a :: b :: c :: ',' :: commaRev (d :: rest)
  | l => l

/-- Python `f"{n:,}"` for a natural number. -/
def commaNat (n : Nat) : String :=
  String.mk ((commaRev (toString n).data.reverse).reverse)

/-- Python `f"{v:,}"` for an integer. -/
def commaInt (v : Int) : String :=
  if v < 0 then "-" ++ commaNat v.natAbs else commaNat v.natAbs

/-! ### Class catalog (`CLASS_NAMES` / `CLASS_ICONS`) -/

def CLASS_NAMES : List (Int × String) :=
  [(0, "Magic User"), (1, "Cleric"), (2, "Thief"), (3, "Warrior")]

def CLASS_ICONS : List (Int × String) :=
  [(0, "🔮"), (1, "✝️"), (2, "🗡️"), (3, "⚔️")]

/-- Python `dict.get(k, dflt)` on a small association list. -/
def dictGet (m : List (Int × String)) (k : Int) (dflt : String) : String :=
  match m with
  | [] => dflt
  | (a, b) :: rest => if a = k then b else dictGet rest k dflt

def className (c : Int) : String := dictGet CLASS_NAMES c "Unknown"

def classIcon (c : Int) : String := dictGet CLASS_ICONS c "❓"

/-! ### The `Player` record -/

structure Player where
  name : String
  class_id : Int
  level : Int
  xp : Int
  gold : Int
deriving DecidableEq

def Player.class_name (p : Player) : String := className p.class_id

def Player.class_icon (p : Player) : String := classIcon p.class_id

/-- The `data` dict of `parse_player_file` before any line is read. -/
def initPlayer : Player := ⟨"", 0, 0, 0, 0⟩

/-! ### The parser (`parse_player_file` body) -/

/-- One iteration of the line loop of `parse_player_file`: strip the
line, then dispatch on the prefixes `Name:`, `Clas:`, `Levl:`, `Exp `
(space-delimited) and `Gold:`.  In the colon-suffixed branches the colon
is part of the matched token, so `split(":", 1)[1]` cannot fail and
`afterColonD` is exact; in the `Exp ` branch a missing colon raises
`IndexError`, which the script catches (`afterColon` returning `none`). -/
def parseLine (d : Player) (raw : List Char) : Player :=
  let l := stripL raw
  if startsWithL "Name:".data l then
    { d with name := String.mk (stripL (afterColonD l)) }
  else if startsWithL "Clas:".data l then
    match pyInt (stripL (afterColonD l)) with
    | some v => { d with class_id := v }
    | none => d
  else if startsWithL "Levl:".data l then
    match pyInt (stripL (afterColonD l)) with
    | some v => { d with level := v }
    | none => d
  else if startsWithL "Exp ".data l then
    match afterColon l with
    | none => d
    | some rest =>
      match pyInt (stripL rest) with
      | some v => { d with xp := v }
      | none => d
  else if startsWithL "Gold:".data l then
    match pyInt (stripL (afterColonD l)) with
    | some v => { d with gold := v }
    | none => d
  else d

/-- `parse_player_file` after the file was read: fold the line loop over
the split lines, then reject an empty final name. -/
def parsePlayerLines (lines : List (List Char)) : Option Player :=
  let d := lines.foldl parseLine initPlayer
  if d.name = "" then none else some d

/-- `parse_player_file` on the text of one file. -/
def parsePlayerText (content : String) : Option Player :=
  parsePlayerLines (splitlinesL content.data)

/-! ### Filesystem model for the collector and entry point -/

/-- What `read_text()` can yield for one file: its content, or any
exception (permission, I/O, a directory matched by the glob, ...). -/
inductive FileData where
  | readable (content : String)
  | unreadable
deriving DecidableEq

/-- `parse_player_file` including the guarded `read_text()`. -/
def parse_player_file : FileData → Option Player
  | .unreadable => none
  | .readable c => parsePlayerText c

structure PFile where
  fname : String
  data : FileData
deriving DecidableEq

/-- An immediate child of the root directory: a subdirectory with its
files, or anything that is not a directory. -/
inductive Entry where
  | dir (dname : String) (files : List PFile)
  | nondir (dname : String)
deriving DecidableEq

/-- `subdir.glob("*.plr")`: fnmatch-style, the name ends in `.plr`.
`pathlib.Path.glob` matches hidden (dot-leading) names too, including a
file named exactly `.plr`. -/
def globPlr (f : PFile) : Bool :=
  startsWithL ".plr".data.reverse f.fname.data.reverse

/-- `find_all_players`: skip non-directory children of the root, glob
`*.plr` one level inside each subdirectory, keep the valid parses. -/
def find_all_players (entries : List Entry) : List Player :=
  match entries with
  | [] => []
  | .nondir _ :: rest => find_all_players rest
  | .dir _ files :: rest =>
    (files.filter globPlr).filterMap (fun f => parse_player_file f.data)
      ++ find_all_players rest

/-! ### Ranking (`sorted(..., key=..., reverse=True)[:limit]`)

Python `sorted` is a stable sort; with `reverse=True` it orders by the
key descending while elements with equal keys keep their input order.
`insertDesc`/`sortDesc` realize exactly that arrangement. -/

/-- Insert `x` (which precedes every element of the list in the input)
before the first element whose key is `≤` its own. -/
def insertDesc {α : Type} (key : α → Int) (x : α) : List α → List α
  | [] => [x]
  | y :: ys => if key y ≤ key x then x :: y :: ys else y :: insertDesc key x ys

/-- Stable descending sort by an integer key. -/
def sortDesc {α : Type} (key : α → Int) : List α → List α
  | [] => []
  | x :: xs => insertDesc key x (sortDesc key xs)

/-- `sorted(players, key=lambda p: getattr(p, sort_key), reverse=True)[:limit]`
as used by both `print_table` and `print_class_summary`. -/
def rank (players : List Player) (key : Player → Int) (limit : Nat) : List Player :=
  (sortDesc key players).take limit

/-! ### Reporting (`print_table`, `print_class_summary`)

Each Python `print(...)` call is modelled as one element of a list of
output strings.  `getattr(p, sort_key)` is modelled by passing the field
accessor `key` together with the field's name `keyName`.  The Python
signatures default `limit` to 100 (`print_table`) and 10
(`print_class_summary`); the model's callers pass those values. -/

def print_table (title : String) (players : List Player)
    (key : Player → Int) (keyName : String) (limit : Nat) : List String :=
  let sorted := rank players key limit
  ["\n" ++ repChar '=' 60,
   "  " ++ title,
   repChar '=' 60,
   pyLjust "Rank" 6 ++ " " ++ pyLjust "Player" 15 ++ " " ++
     pyLjust (pyUpper keyName) 12 ++ " " ++ pyLjust "Class" 18 ++ " " ++
     pyLjust "Level" 6,
   repChar '-' 60]
  ++ sorted.enum.map (fun ip =>
      pyLjust (toString (ip.1 + 1)) 6 ++ " " ++
      pyLjust ip.2.name 15 ++ " " ++
      pyLjust (commaInt (key ip.2)) 12 ++ " " ++
      pyLjust (ip.2.class_icon ++ " " ++ ip.2.class_name) 18 ++ " " ++
      pyLjust (toString ip.2.level) 6)
  ++ [""]

/-- `class_counts[p.class_id] = class_counts.get(p.class_id, 0) + 1` on
an insertion-ordered dict. -/
def bump (counts : List (Int × Nat)) (c : Int) : List (Int × Nat) :=
  match counts with
  | [] => [(c, 1)]
  | (k, n) :: rest => if k = c then (k, n + 1) :: rest else (k, n) :: bump rest c

def print_class_summary (players : List Player) (key : Player → Int)
    (limit : Nat) : List String :=
  let sorted := rank players key limit
  let counts := sorted.foldl (fun cs p => bump cs p.class_id) []
  "Class Distribution:" ::
    (sortDesc (fun kc => (kc.2 : Int)) counts).map (fun kc =>
      "  " ++ classIcon kc.1 ++ " " ++ className kc.1 ++ ": " ++
        toString kc.2 ++ " player(s)")

/-! ### Entry point (`main`)

`Path.exists()` and `Path.absolute()` are OS calls; the model takes the
two existence answers as booleans, the listing of each candidate
directory as data, and `absolute()` as an opaque path-resolving
function. -/

def mainRun (absf : String → String) (scriptDir : String)
    (existsScript existsCwd : Bool)
    (entriesScript entriesCwd : List Entry) : Nat × List String :=
  let pdir := if existsScript then scriptDir ++ "/lib/plrfiles" else "lib/plrfiles"
  if !(existsScript || existsCwd) then
    (1, ["Error: Could not find plrfiles directory",
         "Looked in: " ++ absf pdir])
  else
    let players := find_all_players (if existsScript then entriesScript else entriesCwd)
    (0, ["Reading player files from: " ++ absf pdir,
         "Found " ++ toString players.length ++ " players"]
        ++ print_table "🏆 TOP 10 PLAYERS BY XP" players Player.xp "xp" 100
        ++ print_class_summary players Player.xp 10
        ++ print_table "💰 TOP 10 PLAYERS BY GOLD" players Player.gold "gold" 100
        ++ print_class_summary players Player.gold 10)

/-! ### Per-line observation functions

For each field of the `data` dict, the value (if any) that one line of
the loop assigns to it; derived from the branch structure of
`parseLine`. -/

/-- The value a line contributes to `data["name"]`, if any. -/
def nameValOf (raw : List Char) : Option String :=
  if startsWithL "Name:".data (stripL raw) = true then
    some (String.mk (stripL (afterColonD (stripL raw))))
  else none

/-- The value a line contributes to `data["class_id"]`, if any. -/
def clasValOf (raw : List Char) : Option Int :=
  if startsWithL "Clas:".data (stripL raw) = true then
    pyInt (stripL (afterColonD (stripL raw)))
  else none

/-- The value a line contributes to `data["level"]`, if any. -/
def levlValOf (raw : List Char) : Option Int :=
  if startsWithL "Levl:".data (stripL raw) = true then
    pyInt (stripL (afterColonD (stripL raw)))
  else none

/-- The value a line contributes to `data["xp"]`, if any. -/
def xpValOf (raw : List Char) : Option Int :=
  if startsWithL "Exp ".data (stripL raw) = true then
    match afterColon (stripL raw) with
    | none => none
    | some rest => pyInt (stripL rest)
  else none

/-- The value a line contributes to `data["gold"]`, if any. -/
def goldValOf (raw : List Char) : Option Int :=
  if startsWithL "Gold:".data (stripL raw) = true then
    pyInt (stripL (afterColonD (stripL raw)))
  else none

/-- The name the parser ends with: the value contributed by the last
`Name:` line, or the empty-string default when no line matches. -/
def lastNameVal (lines : List (List Char)) : String :=
  lines.foldl (fun acc raw => (nameValOf raw).getD acc) ""

/-- A line that is recognized as one of the numeric keys but whose value
does not parse as an integer (including a colon-less `Exp ` line, whose
`IndexError` the script catches). -/
def malformedNumeric (raw : List Char) : Bool :=
  ((startsWithL "Clas:".data (stripL raw) ||
    startsWithL "Levl:".data (stripL raw) ||
    startsWithL "Gold:".data (stripL raw))
    && (pyInt (stripL (afterColonD (stripL raw)))).isNone)
  || (startsWithL "Exp ".data (stripL raw)
      && (match afterColon (stripL raw) with
          | none => true
          | some rest => (pyInt (stripL rest)).isNone))

/-! ### Helper lemmas -/

theorem startsWith_ne (a b : Char) (as bs l : List Char) (hab : a ≠ b)
    (h : startsWithL (a :: as) l = true) : startsWithL (b :: bs) l = false := by
  cases l with
  | nil => simp [startsWithL] at h
  | cons c cs =>
    simp only [startsWithL, Bool.and_eq_true, beq_iff_eq] at h
    obtain ⟨rfl, h2⟩ := h
    have hba : (b == a) = false := by
      simp only [beq_eq_false_iff_ne, ne_eq]
      exact fun hcon => hab hcon.symm
    simp [startsWithL, hba]

theorem parseLine_name (d : Player) (raw : List Char)
    (h : startsWithL "Name:".data (stripL raw) = true) :
    parseLine d raw = { d with name := String.mk (stripL (afterColonD (stripL raw))) } := by
  simp [parseLine, h]

theorem parseLine_clas (d : Player) (raw : List Char)
    (h : startsWithL "Clas:".data (stripL raw) = true) :
    parseLine d raw =
      (match pyInt (stripL (afterColonD (stripL raw))) with
       | some v => { d with class_id := v }
       | none => d) := by
  have hN := startsWith_ne 'C' 'N' "las:".data "ame:".data (stripL raw) (by decide) h
  simp [parseLine, h, hN]

theorem parseLine_levl (d : Player) (raw : List Char)
    (h : startsWithL "Levl:".data (stripL raw) = true) :
    parseLine d raw =
      (match pyInt (stripL (afterColonD (stripL raw))) with
       | some v => { d with level := v }
       | none => d) := by
  have hN := startsWith_ne 'L' 'N' "evl:".data "ame:".data (stripL raw) (by decide) h
  have hC := startsWith_ne 'L' 'C' "evl:".data "las:".data (stripL raw) (by decide) h
  simp [parseLine, h, hN, hC]

theorem parseLine_exp (d : Player) (raw : List Char)
    (h : startsWithL "Exp ".data (stripL raw) = true) :
    parseLine d raw =
      (match afterColon (stripL raw) with
       | none => d
       | some rest =>
         match pyInt (stripL rest) with
         | some v => { d with xp := v }
         | none => d) := by
  have hN := startsWith_ne 'E' 'N' "xp ".data "ame:".data (stripL raw) (by decide) h
  have hC := startsWith_ne 'E' 'C' "xp ".data "las:".data (stripL raw) (by decide) h
  have hL := startsWith_ne 'E' 'L' "xp ".data "evl:".data (stripL raw) (by decide) h
  simp [parseLine, h, hN, hC, hL]

theorem parseLine_gold (d : Player) (raw : List Char)
    (h : startsWithL "Gold:".data (stripL raw) = true) :
    parseLine d raw =
      (match pyInt (stripL (afterColonD (stripL raw))) with
       | some v => { d with gold := v }
       | none => d) := by
  have hN := startsWith_ne 'G' 'N' "old:".data "ame:".data (stripL raw) (by decide) h
  have hC := startsWith_ne 'G' 'C' "old:".data "las:".data (stripL raw) (by decide) h
  have hL := startsWith_ne 'G' 'L' "old:".data "evl:".data (stripL raw) (by decide) h
  have hE := startsWith_ne 'G' 'E' "old:".data "xp ".data (stripL raw) (by decide) h
  simp [parseLine, h, hN, hC, hL, hE]

theorem parseLine_other (d : Player) (raw : List Char)
    (hN : startsWithL "Name:".data (stripL raw) = false)
    (hC : startsWithL "Clas:".data (stripL raw) = false)
    (hL : startsWithL "Levl:".data (stripL raw) = false)
    (hE : startsWithL "Exp ".data (stripL raw) = false)
    (hG : startsWithL "Gold:".data (stripL raw) = false) :
    parseLine d raw = d := by
  simp [parseLine, hN, hC, hL, hE, hG]

/-- Complete characterization of one loop iteration: each field takes the
value its (unique, mutually exclusive) matching branch contributes, or
keeps its previous value. -/
theorem parseLine_eq (d : Player) (raw : List Char) :
    parseLine d raw =
      { name := (nameValOf raw).getD d.name,
        class_id := (clasValOf raw).getD d.class_id,
        level := (levlValOf raw).getD d.level,
        xp := (xpValOf raw).getD d.xp,
        gold := (goldValOf raw).getD d.gold } := by
  by_cases hN : startsWithL "Name:".data (stripL raw) = true
  · have hC := startsWith_ne 'N' 'C' "ame:".data "las:".data (stripL raw) (by decide) hN
    have hL := startsWith_ne 'N' 'L' "ame:".data "evl:".data (stripL raw) (by decide) hN
    have hE := startsWith_ne 'N' 'E' "ame:".data "xp ".data (stripL raw) (by decide) hN
    have hG := startsWith_ne 'N' 'G' "ame:".data "old:".data (stripL raw) (by decide) hN
    rw [parseLine_name d raw hN]
    simp [nameValOf, clasValOf, levlValOf, xpValOf, goldValOf, hN, hC, hL, hE, hG]
  · replace hN := eq_false_of_ne_true hN
    by_cases hC : startsWithL "Clas:".data (stripL raw) = true
    · have hL := startsWith_ne 'C' 'L' "las:".data "evl:".data (stripL raw) (by decide) hC
      have hE := startsWith_ne 'C' 'E' "las:".data "xp ".data (stripL raw) (by decide) hC
      have hG := startsWith_ne 'C' 'G' "las:".data "old:".data (stripL raw) (by decide) hC
      rw [parseLine_clas d raw hC]
      cases hv : pyInt (stripL (afterColonD (stripL raw))) <;>
        simp [nameValOf, clasValOf, levlValOf, xpValOf, goldValOf, hN, hC, hL, hE, hG, hv]
    · replace hC := eq_false_of_ne_true hC
      by_cases hL : startsWithL "Levl:".data (stripL raw) = true
      · have hE := startsWith_ne 'L' 'E' "evl:".data "xp ".data (stripL raw) (by decide) hL
        have hG := startsWith_ne 'L' 'G' "evl:".data "old:".data (stripL raw) (by decide) hL
        rw [parseLine_levl d raw hL]
        cases hv : pyInt (stripL (afterColonD (stripL raw))) <;>
          simp [nameValOf, clasValOf, levlValOf, xpValOf, goldValOf, hN, hC, hL, hE, hG, hv]
      · replace hL := eq_false_of_ne_true hL
        by_cases hE : startsWithL "Exp ".data (stripL raw) = true
        · have hG := startsWith_ne 'E' 'G' "xp ".data "old:".data (stripL raw) (by decide) hE
          rw [parseLine_exp d raw hE]
          cases ha : afterColon (stripL raw) with
          | none =>
            simp [nameValOf, clasValOf, levlValOf, xpValOf, goldValOf, hN, hC, hL, hE, hG, ha]
          | some rest =>
            cases hv : pyInt (stripL rest) <;>
              simp [nameValOf, clasValOf, levlValOf, xpValOf, goldValOf, hN, hC, hL, hE, hG, ha, hv]
        · replace hE := eq_false_of_ne_true hE
          by_cases hG : startsWithL "Gold:".data (stripL raw) = true
          · rw [parseLine_gold d raw hG]
            cases hv : pyInt (stripL (afterColonD (stripL raw))) <;>
              simp [nameValOf, clasValOf, levlValOf, xpValOf, goldValOf, hN, hC, hL, hE, hG, hv]
          · replace hG := eq_false_of_ne_true hG
            rw [parseLine_other d raw hN hC hL hE hG]
            simp [nameValOf, clasValOf, levlValOf, xpValOf, goldValOf, hN, hC, hL, hE, hG]

theorem parseLine_name_field (d : Player) (raw : List Char) :
    (parseLine d raw).name = (nameValOf raw).getD d.name := by
  rw [parseLine_eq]

theorem parseLine_clas_field (d : Player) (raw : List Char) :
    (parseLine d raw).class_id = (clasValOf raw).getD d.class_id := by
  rw [parseLine_eq]

theorem parseLine_levl_field (d : Player) (raw : List Char) :
    (parseLine d raw).level = (levlValOf raw).getD d.level := by
  rw [parseLine_eq]

theorem parseLine_xp_field (d : Player) (raw : List Char) :
    (parseLine d raw).xp = (xpValOf raw).getD d.xp := by
  rw [parseLine_eq]

theorem parseLine_gold_field (d : Player) (raw : List Char) :
    (parseLine d raw).gold = (goldValOf raw).getD d.gold := by
  rw [parseLine_eq]

theorem foldl_field {α : Type} (get : Player → α) (f : List Char → Option α)
    (hstep : ∀ d raw, get (parseLine d raw) = (f raw).getD (get d))
    (lines : List (List Char)) (d : Player) :
    get (lines.foldl parseLine d) =
      lines.foldl (fun a raw => (f raw).getD a) (get d) := by
  induction lines generalizing d with
  | nil => rfl
  | cons l ls ih => simp [List.foldl_cons, ih, hstep]

theorem foldl_field_none {α : Type} (f : List Char → Option α)
    (lines : List (List Char)) (a : α)
    (hnone : ∀ raw ∈ lines, f raw = none) :
    lines.foldl (fun a raw => (f raw).getD a) a = a := by
  induction lines generalizing a with
  | nil => rfl
  | cons l ls ih =>
    have h1 : f l = none := hnone l (List.mem_cons_self l ls)
    simp [List.foldl_cons, h1]
    exact ih a (fun raw hr => hnone raw (List.mem_cons_of_mem l hr))

theorem insertDesc_perm {α : Type} (key : α → Int) (x : α) (l : List α) :
    List.Perm (insertDesc key x l) (x :: l) := by
  induction l with
  | nil => exact List.Perm.refl [x]
  | cons y ys ih =>
    unfold insertDesc
    by_cases hk : key y ≤ key x
    · simp only [if_pos hk]
      exact List.Perm.refl (x :: y :: ys)
    · simp only [if_neg hk]
      exact (ih.cons y).trans (List.Perm.swap x y ys)

theorem sortDesc_perm {α : Type} (key : α → Int) (l : List α) :
    List.Perm (sortDesc key l) l := by
  induction l with
  | nil => exact List.Perm.refl []
  | cons x xs ih => exact (insertDesc_perm key x (sortDesc key xs)).trans (ih.cons x)

theorem insertDesc_pairwise {α : Type} (key : α → Int) (x : α) (l : List α)
    (h : l.Pairwise (fun a b => key b ≤ key a)) :
    (insertDesc key x l).Pairwise (fun a b => key b ≤ key a) := by
  induction l with
  | nil => simp [insertDesc]
  | cons y ys ih =>
    rw [List.pairwise_cons] at h
    obtain ⟨h1, h2⟩ := h
    unfold insertDesc
    by_cases hk : key y ≤ key x
    · simp only [if_pos hk]
      refine List.Pairwise.cons ?_ (List.Pairwise.cons h1 h2)
      intro b hb
      rcases List.mem_cons.mp hb with rfl | hb2
      · exact hk
      · exact le_trans (h1 b hb2) hk
    · simp only [if_neg hk]
      refine List.Pairwise.cons ?_ (ih h2)
      intro b hb
      have hmem := (insertDesc_perm key x ys).mem_iff.mp hb
      rcases List.mem_cons.mp hmem with rfl | hb2
      · exact le_of_not_le hk
      · exact h1 b hb2

theorem sortDesc_pairwise {α : Type} (key : α → Int) (l : List α) :
    (sortDesc key l).Pairwise (fun a b => key b ≤ key a) := by
  induction l with
  | nil => simp [sortDesc]
  | cons x xs ih => exact insertDesc_pairwise key x (sortDesc key xs) ih

theorem filter_insertDesc {α : Type} (key : α → Int) (v : Int) (x : α) (l : List α) :
    (insertDesc key x l).filter (fun p => key p == v) =
      if key x == v then x :: l.filter (fun p => key p == v)
      else l.filter (fun p => key p == v) := by
  induction l with
  | nil => by_cases hx : (key x == v) = true <;> simp [insertDesc, List.filter, hx]
  | cons y ys ih =>
    unfold insertDesc
    by_cases hk : key y ≤ key x
    · by_cases hx : (key x == v) = true <;>
        by_cases hy : (key y == v) = true <;>
          simp [if_pos hk, List.filter_cons, hx, hy]
    · have hxy : key x < key y := not_le.mp hk
      by_cases hy : (key y == v) = true
      · have hxv : (key x == v) = false := by
          simp only [beq_iff_eq] at hy
          simp only [beq_eq_false_iff_ne, ne_eq]
          intro hcon
          rw [hcon, hy] at hxy
          exact lt_irrefl v hxy
        simp [if_neg hk, List.filter_cons, hy, hxv, ih]
      · have hy2 : (key y == v) = false := eq_false_of_ne_true hy
        by_cases hx : (key x == v) = true <;>
          simp [if_neg hk, List.filter_cons, hy2, hx, ih]

/-- Stability of the descending sort: among the records whose key equals
any fixed value, the sorted list carries exactly the input sublist, in
input order. -/
theorem sortDesc_filter {α : Type} (key : α → Int) (v : Int) (l : List α) :
    (sortDesc key l).filter (fun p => key p == v) =
      l.filter (fun p => key p == v) := by
  induction l with
  | nil => rfl
  | cons x xs ih =>
    show (insertDesc key x (sortDesc key xs)).filter (fun p => key p == v) = _
    rw [filter_insertDesc, ih, List.filter_cons]


theorem parseLine_malformed (raw : List Char) (h : malformedNumeric raw = true)
    (d : Player) : parseLine d raw = d := by
  unfold malformedNumeric at h
  rw [Bool.or_eq_true, Bool.and_eq_true, Bool.and_eq_true] at h
  rcases h with ⟨hrec, hval⟩ | ⟨hrec, hval⟩
  · rw [Bool.or_eq_true, Bool.or_eq_true] at hrec
    rcases hrec with (hC | hL) | hG
    · rw [parseLine_clas d raw hC]
      cases hv : pyInt (stripL (afterColonD (stripL raw)))
      · rfl
      · rw [hv] at hval; simp at hval
    · rw [parseLine_levl d raw hL]
      cases hv : pyInt (stripL (afterColonD (stripL raw)))
      · rfl
      · rw [hv] at hval; simp at hval
    · rw [parseLine_gold d raw hG]
      cases hv : pyInt (stripL (afterColonD (stripL raw)))
      · rfl
      · rw [hv] at hval; simp at hval
  · rw [parseLine_exp d raw hrec]
    cases ha : afterColon (stripL raw) with
    | none => rfl
    | some rest =>
      rw [ha] at hval
      have hval2 : (pyInt (stripL rest)).isNone = true := hval
      show (match pyInt (stripL rest) with
            | some v => { d with xp := v }
            | none => d) = d
      rw [Option.isNone_iff_eq_none.mp hval2]

theorem parsePlayerLines_erase (pre post : List (List Char)) (raw : List Char)
    (h : malformedNumeric raw = true) :
    parsePlayerLines (pre ++ raw :: post) = parsePlayerLines (pre ++ post) := by
  unfold parsePlayerLines
  rw [List.foldl_append, List.foldl_append, List.foldl_cons,
      parseLine_malformed raw h]

theorem foldl_name_lastNameVal (lines : List (List Char)) :
    (lines.foldl parseLine initPlayer).name = lastNameVal lines := by
  rw [foldl_field Player.name nameValOf parseLine_name_field lines initPlayer]
  rfl

theorem parseLine_set_name (d : Player) (raw : List Char) (s : String)
    (h : nameValOf raw = some s) :
    parseLine d raw = { d with name := s } := by
  have hg : startsWithL "Name:".data (stripL raw) = true := by
    by_contra hg
    simp [nameValOf, hg] at h
  rw [parseLine_name d raw hg]
  unfold nameValOf at h
  rw [if_pos hg] at h
  rw [Option.some.inj h]

theorem parseLine_set_clas (d : Player) (raw : List Char) (v : Int)
    (h : clasValOf raw = some v) :
    parseLine d raw = { d with class_id := v } := by
  have hg : startsWithL "Clas:".data (stripL raw) = true := by
    by_contra hg
    simp [clasValOf, hg] at h
  rw [parseLine_clas d raw hg]
  unfold clasValOf at h
  rw [if_pos hg] at h
  rw [h]

theorem parseLine_set_levl (d : Player) (raw : List Char) (v : Int)
    (h : levlValOf raw = some v) :
    parseLine d raw = { d with level := v } := by
  have hg : startsWithL "Levl:".data (stripL raw) = true := by
    by_contra hg
    simp [levlValOf, hg] at h
  rw [parseLine_levl d raw hg]
  unfold levlValOf at h
  rw [if_pos hg] at h
  rw [h]

theorem parseLine_set_xp (d : Player) (raw : List Char) (v : Int)
    (h : xpValOf raw = some v) :
    parseLine d raw = { d with xp := v } := by
  have hg : startsWithL "Exp ".data (stripL raw) = true := by
    by_contra hg
    simp [xpValOf, hg] at h
  rw [parseLine_exp d raw hg]
  unfold xpValOf at h
  rw [if_pos hg] at h
  cases ha : afterColon (stripL raw) with
  | none => rw [ha] at h; simp at h
  | some rest =>
    rw [ha] at h
    have h2 : pyInt (stripL rest) = some v := h
    show (match pyInt (stripL rest) with
          | some v => { d with xp := v }
          | none => d) = _
    rw [h2]

theorem parseLine_set_gold (d : Player) (raw : List Char) (v : Int)
    (h : goldValOf raw = some v) :
    parseLine d raw = { d with gold := v } := by
  have hg : startsWithL "Gold:".data (stripL raw) = true := by
    by_contra hg
    simp [goldValOf, hg] at h
  rw [parseLine_gold d raw hg]
  unfold goldValOf at h
  rw [if_pos hg] at h
  rw [h]

/-! ### Claim theorems -/

/-- C1: `rank` returns at most `limit` records, sorted by the chosen
numeric field in descending order, and is the truncation of a stable
permutation of the input: among records with any equal field value the
sorted list carries exactly the input sublist in input order.  On 5
records with gold values [100, 500, 500, 10, 0] and limit 3 it returns
exactly the two 500-gold records in their input order followed by the
100-gold record. -/
theorem c1_rank_descending_stable_truncated :
    (∀ (records : List Player) (field : Player → Int) (limit : Nat),
      (rank records field limit).length ≤ limit
      ∧ (rank records field limit).Pairwise (fun a b => field b ≤ field a)
      ∧ rank records field limit = (sortDesc field records).take limit
      ∧ List.Perm (sortDesc field records) records
      ∧ ∀ v : Int, (sortDesc field records).filter (fun p => field p == v)
          = records.filter (fun p => field p == v))
    ∧ rank [⟨"A", 0, 1, 0, 100⟩, ⟨"B", 1, 2, 0, 500⟩, ⟨"C", 2, 3, 0, 500⟩,
            ⟨"D", 3, 4, 0, 10⟩, ⟨"E", 0, 5, 0, 0⟩] Player.gold 3
        = [⟨"B", 1, 2, 0, 500⟩, ⟨"C", 2, 3, 0, 500⟩, ⟨"A", 0, 1, 0, 100⟩] := by
  constructor
  · intro records field limit
    refine ⟨?_, ?_, rfl, sortDesc_perm field records,
      fun v => sortDesc_filter field v records⟩
    · have h : (rank records field limit).length
          = min limit (sortDesc field records).length := by
        simp [rank]
      omega
    · exact List.Pairwise.sublist (List.take_sublist _ _)
        (sortDesc_pairwise field records)
  · decide

/-- C8: the collector skips non-directory children of the root, returns
per subdirectory exactly the valid parses of the `*.plr` files one level
inside it, an unreadable file yields no record and no error, and the
concrete root (one non-directory child plus one subdirectory holding two
valid record files and one unreadable file) yields exactly the 2 valid
records. -/
theorem c8_collector_skips_and_collects :
    (∀ (nm : String) (rest : List Entry),
      find_all_players (Entry.nondir nm :: rest) = find_all_players rest)
    ∧ (∀ (nm : String) (files : List PFile) (rest : List Entry),
      find_all_players (Entry.dir nm files :: rest) =
        (files.filter globPlr).filterMap (fun f => parse_player_file f.data)
          ++ find_all_players rest)
    ∧ parse_player_file FileData.unreadable = none
    ∧ find_all_players
        [Entry.nondir "readme.txt",
         Entry.dir "alice"
           [⟨"p1.plr", FileData.readable "Name: A\nGold: 5"⟩,
            ⟨"p2.plr", FileData.readable "Name: B"⟩,
            ⟨"bad.plr", FileData.unreadable⟩]]
        = [⟨"A", 0, 0, 0, 5⟩, ⟨"B", 0, 0, 0, 0⟩]
    ∧ (find_all_players
        [Entry.nondir "readme.txt",
         Entry.dir "alice"
           [⟨"p1.plr", FileData.readable "Name: A\nGold: 5"⟩,
            ⟨"p2.plr", FileData.readable "Name: B"⟩,
            ⟨"bad.plr", FileData.unreadable⟩]]).length = 2 := by
  exact ⟨fun nm rest => rfl, fun nm files rest => rfl, rfl, by decide, by decide⟩

/-- C9: the class lookup is total — every integer code maps to one of
the four catalog names or the sentinel — codes outside 0..3 map to the
"Unknown" name and fallback icon, and a file with `Clas: 9` (plus the
required name line) still yields a record, with the sentinel display. -/
theorem c9_unknown_class_is_sentinel :
    (∀ c : Int, ¬(c = 0 ∨ c = 1 ∨ c = 2 ∨ c = 3) →
      className c = "Unknown" ∧ classIcon c = "❓")
    ∧ (∀ c : Int,
        className c = "Magic User" ∨ className c = "Cleric" ∨
        className c = "Thief" ∨ className c = "Warrior" ∨
        className c = "Unknown")
    ∧ parsePlayerText "Name: X\nClas: 9" = some ⟨"X", 9, 0, 0, 0⟩
    ∧ Player.class_name ⟨"X", 9, 0, 0, 0⟩ = "Unknown"
    ∧ Player.class_icon ⟨"X", 9, 0, 0, 0⟩ = "❓" := by
  refine ⟨?_, ?_, by decide, by decide, by decide⟩
  · intro c hc
    have h0 : ¬((0 : Int) = c) := fun h => hc (Or.inl h.symm)
    have h1 : ¬((1 : Int) = c) := fun h => hc (Or.inr (Or.inl h.symm))
    have h2 : ¬((2 : Int) = c) := fun h => hc (Or.inr (Or.inr (Or.inl h.symm)))
    have h3 : ¬((3 : Int) = c) := fun h => hc (Or.inr (Or.inr (Or.inr h.symm)))
    constructor <;>
      simp [className, classIcon, dictGet, CLASS_NAMES, CLASS_ICONS, h0, h1, h2, h3]
  · intro c
    simp only [className, dictGet, CLASS_NAMES]
    split_ifs <;> simp

/-- C9 witness: the general sentinel statement applied at code 9. -/
theorem c9_unknown_class_is_sentinel_witness :
    className 9 = "Unknown" ∧ classIcon 9 = "❓" :=
  c9_unknown_class_is_sentinel.1 9 (by decide)

/-- C2 counterexample: the parser passes a negative integer literal
straight through `int()`, so a produced record can carry a negative
level, contrary to the claim that level, experience and currency are
always non-negative. -/
theorem c2_counterexample :
    parsePlayerText "Name: A\nLevl: -5" = some ⟨"A", 0, -5, 0, 0⟩
    ∧ ¬(0 ≤ (Player.mk "A" 0 (-5) 0 0).level) :=
  ⟨by decide, by decide⟩

/-- C2 (amended): every record produced by the parser has a non-empty
name, and each numeric field is an integer defaulting to 0 when no line
of the file sets it (key absent, or every matching line unparsable);
the value may be negative when the file supplies a negative literal. -/
theorem c2_record_invariants (lines : List (List Char)) (r : Player)
    (h : parsePlayerLines lines = some r) :
    r.name ≠ ""
    ∧ ((∀ raw ∈ lines, levlValOf raw = none) → r.level = 0)
    ∧ ((∀ raw ∈ lines, xpValOf raw = none) → r.xp = 0)
    ∧ ((∀ raw ∈ lines, goldValOf raw = none) → r.gold = 0)
    ∧ ((∀ raw ∈ lines, clasValOf raw = none) → r.class_id = 0) := by
  unfold parsePlayerLines at h
  by_cases hname : (lines.foldl parseLine initPlayer).name = ""
  · rw [if_pos hname] at h; cases h
  · rw [if_neg hname] at h
    have hr : lines.foldl parseLine initPlayer = r := Option.some.inj h
    subst hr
    refine ⟨hname, ?_, ?_, ?_, ?_⟩
    · intro hn
      rw [foldl_field Player.level levlValOf parseLine_levl_field lines initPlayer,
          foldl_field_none levlValOf lines initPlayer.level hn]
      rfl
    · intro hn
      rw [foldl_field Player.xp xpValOf parseLine_xp_field lines initPlayer,
          foldl_field_none xpValOf lines initPlayer.xp hn]
      rfl
    · intro hn
      rw [foldl_field Player.gold goldValOf parseLine_gold_field lines initPlayer,
          foldl_field_none goldValOf lines initPlayer.gold hn]
      rfl
    · intro hn
      rw [foldl_field Player.class_id clasValOf parseLine_clas_field lines initPlayer,
          foldl_field_none clasValOf lines initPlayer.class_id hn]
      rfl

/-- C2 witness: the invariants evaluated on the file `Name: A`. -/
theorem c2_record_invariants_witness :
    (Player.mk "A" 0 0 0 0).name ≠ "" :=
  (c2_record_invariants ["Name: A".data] (Player.mk "A" 0 0 0 0) (by decide)).1

/-- C3 counterexample: a space-delimited `Exp 42` line with no colon
does not set the experience field — the record keeps experience 0, not
42. -/
theorem c3_counterexample :
    parsePlayerText "Name: A\nExp 42" = some ⟨"A", 0, 0, 0, 0⟩
    ∧ (Player.mk "A" 0 0 0 0).xp ≠ 42 :=
  ⟨by decide, by decide⟩

/-- C3 (amended): an experience line must both start with the
space-delimited token `Exp ` and contain a colon for its value to be
taken (`Exp : 42` sets experience 42); on a recognized `Exp ` line with
no colon the caught `IndexError` leaves the record unchanged, so the
experience stays 0. -/
theorem c3_exp_value_needs_colon :
    (∀ (d : Player) (raw : List Char),
      startsWithL "Exp ".data (stripL raw) = true →
      afterColon (stripL raw) = none →
      parseLine d raw = d)
    ∧ parsePlayerText "Name: A\nExp : 42" = some ⟨"A", 0, 0, 42, 0⟩
    ∧ parsePlayerText "Name: A\nExp 42" = some ⟨"A", 0, 0, 0, 0⟩ := by
  refine ⟨?_, by decide, by decide⟩
  intro d raw h hnc
  rw [parseLine_exp d raw h, hnc]

/-- C3 witness: the no-colon case applied to the literal line `Exp 42`. -/
theorem c3_exp_value_needs_colon_witness :
    parseLine initPlayer "Exp 42".data = initPlayer :=
  c3_exp_value_needs_colon.1 initPlayer "Exp 42".data (by decide) (by decide)

/-- C4: a line reaches the experience branch iff its stripped form
starts with the literal `Exp ` (token plus space): without that token
the experience field is untouched, with it the branch fully governs the
result; `Exp : 1234` sets experience 1234 while the colon-suffixed
`Exp: 1234` is not recognized and leaves experience 0. -/
theorem c4_exp_recognition_iff :
    (∀ (d : Player) (raw : List Char),
      startsWithL "Exp ".data (stripL raw) = false →
      (parseLine d raw).xp = d.xp)
    ∧ (∀ (d : Player) (raw : List Char),
      startsWithL "Exp ".data (stripL raw) = true →
      parseLine d raw =
        (match afterColon (stripL raw) with
         | none => d
         | some rest =>
           match pyInt (stripL rest) with
           | some v => { d with xp := v }
           | none => d))
    ∧ parsePlayerText "Name: A\nExp : 1234" = some ⟨"A", 0, 0, 1234, 0⟩
    ∧ parsePlayerText "Name: A\nExp: 1234" = some ⟨"A", 0, 0, 0, 0⟩ := by
  refine ⟨?_, fun d raw h => parseLine_exp d raw h, by decide, by decide⟩
  intro d raw h
  rw [parseLine_xp_field]
  simp [xpValOf, h]

/-- C4 witness: the negative direction applied to the colon-suffixed
line `Exp: 1234`. -/
theorem c4_exp_recognition_iff_witness :
    (parseLine initPlayer "Exp: 1234".data).xp = initPlayer.xp :=
  c4_exp_recognition_iff.1 initPlayer "Exp: 1234".data (by decide)

/-- C5 counterexample: the file `Name: A` + `Name:` contains a Name line
with the non-empty value `A`, yet the parser returns no record, because
the later empty Name line overwrites the earlier value. -/
theorem c5_counterexample :
    parsePlayerText "Name: A\nName:" = none
    ∧ splitlinesL "Name: A\nName:".data = ["Name: A".data, "Name:".data]
    ∧ nameValOf "Name: A".data = some "A"
    ∧ ("A" : String) ≠ "" :=
  ⟨by decide, by decide, by decide, by decide⟩

/-- C5 (amended): the parser returns no record iff the final accumulated
name — the value of the last Name line, or the empty default when no
line matches — is empty; whenever that final name is non-empty a record
is produced carrying it, regardless of the other fields. -/
theorem c5_none_iff_last_name_empty (lines : List (List Char)) :
    (parsePlayerLines lines = none ↔ lastNameVal lines = "")
    ∧ ∀ r : Player, parsePlayerLines lines = some r →
        r.name = lastNameVal lines := by
  have hfold := foldl_name_lastNameVal lines
  constructor
  · unfold parsePlayerLines
    by_cases hname : (lines.foldl parseLine initPlayer).name = ""
    · rw [if_pos hname]
      constructor
      · intro _
        rw [← hfold]
        exact hname
      · intro _
        rfl
    · rw [if_neg hname]
      constructor
      · intro hcon
        exact absurd hcon (by simp)
      · intro hl
        exact (hname (hfold.trans hl)).elim
  · intro r h
    unfold parsePlayerLines at h
    by_cases hname : (lines.foldl parseLine initPlayer).name = ""
    · rw [if_pos hname] at h; cases h
    · rw [if_neg hname] at h
      rw [← Option.some.inj h, hfold]

/-- C5 witness: the produced-record direction evaluated on `Name: A`. -/
theorem c5_none_iff_last_name_empty_witness :
    (Player.mk "A" 0 0 0 0).name = lastNameVal ["Name: A".data] :=
  (c5_none_iff_last_name_empty ["Name: A".data]).2 (Player.mk "A" 0 0 0 0)
    (by decide)

/-- C6: a file containing only `Name: Alice` parses to the record with
name "Alice", default class code 0 and all numeric fields 0; a
recognized numeric line whose value is not an integer can be deleted
from any file without changing the parse (the field keeps whatever value
the other lines give it), and in a concrete mixed file `Levl: abc`
leaves level 0 while name, class, experience and gold parse normally. -/
theorem c6_name_only_defaults_and_malformed_values :
    parsePlayerText "Name: Alice" = some ⟨"Alice", 0, 0, 0, 0⟩
    ∧ (∀ (pre post : List (List Char)) (raw : List Char),
        malformedNumeric raw = true →
        parsePlayerLines (pre ++ raw :: post) = parsePlayerLines (pre ++ post))
    ∧ parsePlayerText "Name: Alice\nLevl: abc\nClas: 2\nExp : 5\nGold: 7"
        = some ⟨"Alice", 2, 0, 5, 7⟩ :=
  ⟨by decide, fun pre post raw h => parsePlayerLines_erase pre post raw h,
   by decide⟩

/-- C6 witness: deleting the malformed line `Levl: abc` after
`Name: Alice` leaves the parse unchanged. -/
theorem c6_name_only_defaults_and_malformed_values_witness :
    parsePlayerLines (["Name: Alice".data] ++ "Levl: abc".data :: [])
      = parsePlayerLines (["Name: Alice".data] ++ []) :=
  c6_name_only_defaults_and_malformed_values.2.1
    ["Name: Alice".data] [] "Levl: abc".data (by decide)

/-- C7: the entry point exits 1 iff neither candidate directory exists,
in which case its output is exactly the diagnostic naming the attempted
(fallback) path; otherwise it exits 0 — and with zero records each
report still renders, as a header-only table and a bare class-summary
heading. -/
theorem c7_exit_status :
    (∀ (absf : String → String) (scriptDir : String) (es ec : Bool)
       (entS entC : List Entry),
      ((mainRun absf scriptDir es ec entS entC).1 = 1 ↔ (es = false ∧ ec = false))
      ∧ ((mainRun absf scriptDir es ec entS entC).1 = 0 ↔ (es = true ∨ ec = true))
      ∧ (es = false → ec = false →
          (mainRun absf scriptDir es ec entS entC).2 =
            ["Error: Could not find plrfiles directory",
             "Looked in: " ++ absf "lib/plrfiles"]))
    ∧ (∀ (title keyName : String) (key : Player → Int) (limit : Nat),
        print_table title [] key keyName limit =
          ["\n" ++ repChar '=' 60, "  " ++ title, repChar '=' 60,
           pyLjust "Rank" 6 ++ " " ++ pyLjust "Player" 15 ++ " " ++
             pyLjust (pyUpper keyName) 12 ++ " " ++ pyLjust "Class" 18 ++ " " ++
             pyLjust "Level" 6,
           repChar '-' 60, ""])
    ∧ (∀ (key : Player → Int) (limit : Nat),
        print_class_summary [] key limit = ["Class Distribution:"]) := by
  refine ⟨?_, ?_, ?_⟩
  · intro absf scriptDir es ec entS entC
    cases es <;> cases ec <;> simp [mainRun]
  · intro title keyName key limit
    simp [print_table, rank, sortDesc]
  · intro key limit
    simp [print_class_summary, rank, sortDesc]

/-- C7 witness: with both candidate directories missing the exit status
is 1 and the diagnostic names the attempted path. -/
theorem c7_exit_status_witness :
    (mainRun (fun s => s) "script" false false [] []).1 = 1
    ∧ (mainRun (fun s => s) "script" false false [] []).2 =
        ["Error: Could not find plrfiles directory",
         "Looked in: " ++ (fun s : String => s) "lib/plrfiles"] :=
  ⟨((c7_exit_status.1 (fun s => s) "script" false false [] []).1).mpr
      ⟨rfl, rfl⟩,
   (c7_exit_status.1 (fun s => s) "script" false false [] []).2.2 rfl rfl⟩

/-- C10: a line recognized with a usable value overwrites the field
whatever its previous value (so the last such line wins); a recognized
numeric line with an unparsable value leaves the whole record unchanged
(so the earlier value stays); the final name is the value of the last
Name line even when empty — in which case the record is discarded —
and the level is the fold of the per-line level values over the file. -/
theorem c10_last_occurrence_wins :
    (∀ (d : Player) (raw : List Char) (s : String),
      nameValOf raw = some s → parseLine d raw = { d with name := s })
    ∧ (∀ (d : Player) (raw : List Char) (v : Int),
      clasValOf raw = some v → parseLine d raw = { d with class_id := v })
    ∧ (∀ (d : Player) (raw : List Char) (v : Int),
      levlValOf raw = some v → parseLine d raw = { d with level := v })
    ∧ (∀ (d : Player) (raw : List Char) (v : Int),
      xpValOf raw = some v → parseLine d raw = { d with xp := v })
    ∧ (∀ (d : Player) (raw : List Char) (v : Int),
      goldValOf raw = some v → parseLine d raw = { d with gold := v })
    ∧ (∀ (d : Player) (raw : List Char),
      malformedNumeric raw = true → parseLine d raw = d)
    ∧ (∀ lines : List (List Char),
      (lines.foldl parseLine initPlayer).name = lastNameVal lines)
    ∧ (∀ lines : List (List Char),
      (lines.foldl parseLine initPlayer).level =
        lines.foldl (fun a raw => (levlValOf raw).getD a) 0)
    ∧ parsePlayerText "Name: A\nLevl: 3\nLevl: 7" = some ⟨"A", 0, 7, 0, 0⟩
    ∧ parsePlayerText "Name: A\nLevl: 3\nLevl: xyz" = some ⟨"A", 0, 3, 0, 0⟩
    ∧ parsePlayerText "Name: A\nName:" = none := by
  refine ⟨parseLine_set_name, parseLine_set_clas, parseLine_set_levl,
    parseLine_set_xp, parseLine_set_gold,
    fun d raw h => parseLine_malformed raw h d,
    foldl_name_lastNameVal, ?_, by decide, by decide, by decide⟩
  intro lines
  exact foldl_field Player.level levlValOf parseLine_levl_field lines initPlayer

/-- C10 witness: a later `Levl: 7` line overwrites any earlier level. -/
theorem c10_last_occurrence_wins_witness :
    parseLine (Player.mk "A" 0 3 0 0) "Levl: 7".data = Player.mk "A" 0 7 0 0 :=
  c10_last_occurrence_wins.2.2.1 (Player.mk "A" 0 3 0 0) "Levl: 7".data 7
    (by decide)

end TopPlayers
